import Mathlib

/-!
# Verification of the QUIC connection-multiplexing dispatch loop

Shallow embedding of `src/src/lib.rs` (`setup_quic_server`): a single-threaded
UDP dispatch loop that sniffs each datagram's header, performs version
negotiation, routes datagrams to per-connection state kept in a `ClientMap`
(a hash map keyed by destination connection identifier), feeds bytes to the
quiche engine, runs a minimal echo responder, and flushes outgoing packets.

The quiche engine itself is an external collaborator (spec §1, §4.4); its
operations are modelled from the spec's interface contract, and their
success/failure outcomes for a given datagram are supplied as fields of the
incoming event, so that the dispatcher's control flow — the code under
verification — is embedded faithfully.
-/

namespace QuicheNode

/-- A network address, abstracted. -/
abbrev Addr := Nat

/-- A connection identifier: an opaque byte sequence (table key). -/
abbrev ConnId := List Nat

/-- `const QUIC_V1: u32 = 0x00000001` (lib.rs line 9). -/
def QUIC_V1 : Nat := 0x00000001

/-- `const MAX_DATAGRAM_SIZE: usize = 1350` (lib.rs line 7). -/
def MAX_DATAGRAM_SIZE : Nat := 1350

/-- `const HELLO_MESSAGE: &[u8] = b"Hello, World!"` (lib.rs line 8). -/
def HELLO_MESSAGE : List Nat :=
  [72, 101, 108, 108, 111, 44, 32, 87, 111, 114, 108, 100, 33]

/-- The sniffed header: version field and the two connection identifiers,
as produced by `quiche::Header::from_slice` (lib.rs line 72). -/
structure Header where
  version : Nat
  scid : ConnId
  dcid : ConnId
  deriving Repr, DecidableEq

/-- An outgoing packet produced by the engine: raw bytes plus the
destination address carried in quiche's `send_info.to` (lib.rs line 141). -/
structure OutPkt where
  bytes : List Nat
  dst : Addr
  deriving Repr, DecidableEq

/-- Modelled from the spec: the Connection Engine's per-connection state
(§4.4), an external collaborator not reimplemented here. `tag` is a creation
nonce identifying the `quiche::accept` call that produced this connection;
`established` is what `is_established` reports; `streamFin` is what
`stream_finished(0)` reports, set when the responder's `stream_send` with the
final-frame flag succeeds (§4.5: "then mark the stream finished for this
connection so the behavior never repeats"); `pending` is the queue of
outgoing packets that successive `send` calls drain. -/
structure Conn where
  tag : Nat
  established : Bool
  streamFin : Bool
  pending : List OutPkt
  deriving Repr, DecidableEq

/-- Modelled from the spec: `quiche::accept` (§4.4) establishes a fresh
server-side connection context — not yet established, stream 0 not finished,
nothing pending. -/
def Conn.accept (tag : Nat) : Conn :=
  { tag := tag, established := false, streamFin := false, pending := [] }

/-- One received datagram together with the environment's outcomes for the
external calls the dispatcher may make while handling it: the header-sniff
result, whether `quiche::accept` / `conn.recv` / `conn.stream_send` /
`socket.send_to` would fail, and the engine effects of a successful ingest
(handshake progression and packets queued for output). -/
structure Event where
  src : Addr
  parse : Option Header
  acceptFails : Bool
  recvFails : Bool
  makesEstablished : Bool
  produces : List OutPkt
  streamSendFails : Bool
  sockSendFails : Bool
  deriving Repr, DecidableEq

/-- A version-negotiation datagram as built by `quiche::negotiate_version`
(lib.rs line 83): the versions it lists and the echoed identifiers. -/
structure VNPacket where
  versions : List Nat
  scid : ConnId
  dcid : ConnId
  deriving Repr, DecidableEq

/-- Modelled from the spec: `quiche::negotiate_version(&hdr.scid, &hdr.dcid)`
builds a version-negotiation packet listing the supported version, echoing
the client's two identifiers with roles swapped (§4.2). -/
def negotiate_version (scid dcid : ConnId) : VNPacket :=
  { versions := [QUIC_V1], scid := dcid, dcid := scid }

/-- Observable outputs of one dispatch cycle: log lines (`println!` /
`eprintln!`), datagrams put on the wire, and application-stream sends. -/
inductive Output where
  | logMsg (s : String)
  | vnSent (pkt : VNPacket) (dst : Addr)
  | pktSent (bytes : List Nat) (dst : Addr)
  | streamSent (id : ConnId) (stream : Nat) (data : List Nat) (fin : Bool)
  deriving Repr, DecidableEq

/-- The `ClientMap` (lib.rs line 25): `HashMap<ConnectionId, Client>`,
embedded as an association list. -/
abbrev ClientMap := List (ConnId × Conn)

/-- `HashMap` lookup. -/
def lookupConn : ClientMap → ConnId → Option Conn
  | [], _ => none
  | (k, c) :: rest, id => if k = id then some c else lookupConn rest id

/-- The insertion half of `clients.entry(id).or_insert_with(..)` (lib.rs
line 95), invoked only when the key is absent. -/
def insertConn (t : ClientMap) (id : ConnId) (c : Conn) : ClientMap :=
  t ++ [(id, c)]

/-- Write-back of in-place mutation through the `&mut Client` reference the
entry API returns: replace the value stored under the key. -/
def updateConn : ClientMap → ConnId → Conn → ClientMap
  | [], _, _ => []
  | (k, c0) :: rest, id, c =>
      if k = id then (k, c) :: rest else (k, c0) :: updateConn rest id c

/-- The keys of the Connection Table. -/
def tableKeys (t : ClientMap) : List ConnId := t.map Prod.fst

/-- Dispatcher state threaded through the loop: the client map plus a
counter supplying fresh creation tags for accepted connections. -/
structure ServerState where
  clients : ClientMap
  nextTag : Nat
  deriving Repr, DecidableEq

/-- The state the loop starts from (lib.rs line 32): an empty map. -/
def ServerState.init : ServerState := { clients := [], nextTag := 0 }

/-- Outcome of one loop iteration: either the loop continues with a new
state and its outputs, or the iteration panicked (`panic!` on accept
failure, lib.rs line 107), carrying the outputs emitted before the panic. -/
inductive Outcome where
  | next (st : ServerState) (out : List Output)
  | panicked (out : List Output) (msg : String)
  deriving Repr, DecidableEq

/-- Total projection of an outcome's outputs. -/
def Outcome.outs : Outcome → List Output
  | .next _ out => out
  | .panicked out _ => out

/-- Modelled from the spec: the effect of a successful `conn.recv` ingest on
the engine's connection state (§4.4): the handshake may progress to
established, and packets may be queued for output. -/
def Conn.ingest (c : Conn) (e : Event) : Conn :=
  { c with established := c.established || e.makesEstablished,
           pending := c.pending ++ e.produces }

/-- The echo responder (lib.rs lines 124–137): if `conn.is_established()`
then either stream 0 is already finished (logged), or
`conn.stream_send(0, HELLO_MESSAGE, true)` is attempted — a failure is
logged, a success emits the message and marks stream 0 finished. -/
def echoStep (connId : ConnId) (c1 : Conn) (e : Event) : Conn × List Output :=
  if c1.established then
    if c1.streamFin then
      (c1, [.logMsg "Stream 0 is already finished"])
    else if e.streamSendFails then
      (c1, [.logMsg "Failed to send stream"])
    else
      ({ c1 with streamFin := true },
       [.streamSent connId 0 HELLO_MESSAGE true])
  else (c1, [])

/-- The flush (lib.rs lines 139–153): a single `match client.conn.send(&mut
out)` — the engine pops one pending packet, `Err(Done)` (empty queue) is
logged as a normal signal, a popped packet is passed to `socket.send_to`,
whose failure is merely logged. -/
def flushStep (c2 : Conn) (e : Event) : Conn × List Output :=
  match c2.pending with
  | [] => (c2, [.logMsg "No more packets to send for this client."])
  | p :: rest =>
      if e.sockSendFails then
        ({ c2 with pending := rest }, [.logMsg "Failed to send packet"])
      else
        ({ c2 with pending := rest }, [.pktSent p.bytes p.dst])

/-- The tail of the loop body after the `clients.entry(..).or_insert_with`
call (lib.rs lines 112–153): engine ingest (`conn.recv`), the echo
responder, and one flush call. `st` already contains the entry for `connId`
holding `c`. -/
def stepAfterEntry (st : ServerState) (connId : ConnId) (c : Conn)
    (e : Event) : Outcome :=
  -- lines 114–122: match client.conn.recv(..)
  if e.recvFails then
    .next st [.logMsg "QUIC recv error"]
  else
    let echo := echoStep connId (c.ingest e) e
    let flush := flushStep echo.1 e
    .next { st with clients := updateConn st.clients connId flush.1 }
      (Output.logMsg "Received bytes" :: echo.2 ++ flush.2)

/-- One iteration of the dispatch loop body (lib.rs lines 69–153) for a
received datagram: header sniff, version check with stateless negotiation,
Connection Table lookup/create via the entry API, then `stepAfterEntry`. -/
def step (st : ServerState) (e : Event) : Outcome :=
  match e.parse with
  | none =>
      -- lines 72–78: parse failure is logged and the datagram discarded
      .next st [.logMsg "Failed to parse header"]
  | some hdr =>
      if hdr.version ≠ QUIC_V1 then
        -- lines 81–92: version negotiation, no connection state touched
        let pkt := negotiate_version hdr.scid hdr.dcid
        if e.sockSendFails then
          .next st [.logMsg "Failed to send version negotiation packet"]
        else
          .next st [.vnSent pkt e.src]
      else
        -- lines 94–110: clients.entry(conn_id).or_insert_with(..)
        let connId := hdr.dcid
        match lookupConn st.clients connId with
        | some c => stepAfterEntry st connId c e
        | none =>
            if e.acceptFails then
              -- lines 105–108: eprintln! then panic!
              .panicked [.logMsg "QUIC accept error"]
                "Failed to accept connection"
            else
              let c := Conn.accept st.nextTag
              let st1 : ServerState :=
                { clients := insertConn st.clients connId c,
                  nextTag := st.nextTag + 1 }
              stepAfterEntry st1 connId c e

/-- An event of the blocking `socket.recv_from` call (lib.rs line 69):
either a datagram arrives, or the receive itself fails — which the `?`
operator propagates out of the loop as a fatal error. -/
inductive NetEvent where
  | dgram (e : Event)
  | recvErr (msg : String)
  deriving Repr, DecidableEq

/-- Result of running the loop on a finite prefix of network events. -/
inductive RunResult where
  | running (st : ServerState) (out : List Output)
  | fatal (out : List Output) (msg : String)
  | panicked (out : List Output) (msg : String)
  deriving Repr, DecidableEq

/-- Total projection of a run's outputs. -/
def RunResult.outs : RunResult → List Output
  | .running _ out => out
  | .fatal out _ => out
  | .panicked out _ => out

/-- The dispatch loop (lib.rs lines 68–154) over a finite event prefix:
a receive failure is fatal (propagated by `?`); a datagram is handled by
`step`, whose panic aborts the run. -/
def run (st : ServerState) : List NetEvent → RunResult
  | [] => .running st []
  | .recvErr msg :: _ => .fatal [] ("IO Error: " ++ msg)
  | .dgram e :: rest =>
      match step st e with
      | .panicked out msg => .panicked out msg
      | .next st1 out =>
          match run st1 rest with
          | .running st2 out2 => .running st2 (out ++ out2)
          | .fatal out2 msg => .fatal (out ++ out2) msg
          | .panicked out2 msg => .panicked (out ++ out2) msg

/-- The entry point `setup_quic_server` (lib.rs line 28): bind and
certificate/key loading failures abort with a descriptive error before the
loop; otherwise the dispatch loop runs. -/
def setup_quic_server (bindFails certFails keyFails : Bool)
    (events : List NetEvent) : Except String RunResult :=
  if bindFails then .error "IO Error: bind failed"
  else if certFails then .error "QUIC Error: invalid certificate"
  else if keyFails then .error "QUIC Error: invalid private key"
  else .ok (run ServerState.init events)

/-- Number of version-negotiation datagrams among some outputs. -/
def countVN : List Output → Nat
  | [] => 0
  | .vnSent _ _ :: rest => countVN rest + 1
  | .logMsg _ :: rest => countVN rest
  | .pktSent _ _ :: rest => countVN rest
  | .streamSent _ _ _ _ :: rest => countVN rest

/-- Number of outgoing packets put on the wire among some outputs. -/
def countPkt : List Output → Nat
  | [] => 0
  | .pktSent _ _ :: rest => countPkt rest + 1
  | .logMsg _ :: rest => countPkt rest
  | .vnSent _ _ :: rest => countPkt rest
  | .streamSent _ _ _ _ :: rest => countPkt rest

/-- Number of echo-responder sends for connection `id` among some outputs. -/
def countHello (id : ConnId) : List Output → Nat
  | [] => 0
  | .streamSent id0 _ _ _ :: rest =>
      (if id0 = id then 1 else 0) + countHello id rest
  | .logMsg _ :: rest => countHello id rest
  | .vnSent _ _ :: rest => countHello id rest
  | .pktSent _ _ :: rest => countHello id rest

/-- Whether the table entry for `id` reports stream 0 finished (`false` when
the entry is absent). -/
def entryFin (st : ServerState) (id : ConnId) : Bool :=
  match lookupConn st.clients id with
  | some c => c.streamFin
  | none => false

/-! ## Basic lemmas about the output counters and the Connection Table -/

theorem countVN_append (a b : List Output) :
    countVN (a ++ b) = countVN a + countVN b := by
  induction a with
  | nil => simp [countVN]
  | cons o rest ih => cases o <;> simp [countVN, ih] <;> omega

theorem countPkt_append (a b : List Output) :
    countPkt (a ++ b) = countPkt a + countPkt b := by
  induction a with
  | nil => simp [countPkt]
  | cons o rest ih => cases o <;> simp [countPkt, ih] <;> omega

theorem countHello_append (id : ConnId) (a b : List Output) :
    countHello id (a ++ b) = countHello id a + countHello id b := by
  induction a with
  | nil => simp [countHello]
  | cons o rest ih => cases o <;> simp [countHello, ih] <;> omega

theorem lookupConn_eq_none_iff (t : ClientMap) (id : ConnId) :
    lookupConn t id = none ↔ id ∉ tableKeys t := by
  induction t with
  | nil => simp [lookupConn, tableKeys]
  | cons kv rest ih =>
      obtain ⟨k, c⟩ := kv
      by_cases h : k = id
      · subst h
        simp [lookupConn, tableKeys]
      · have hne : ¬ id = k := fun hh => h hh.symm
        simp [lookupConn, tableKeys, h, hne, ih]

theorem mem_tableKeys_of_lookupConn_some {t : ClientMap} {id : ConnId}
    {c : Conn} (h : lookupConn t id = some c) : id ∈ tableKeys t := by
  by_contra hmem
  rw [← lookupConn_eq_none_iff] at hmem
  rw [h] at hmem
  exact Option.noConfusion hmem

theorem lookupConn_insertConn_self (t : ClientMap) (id : ConnId) (c : Conn)
    (h : lookupConn t id = none) :
    lookupConn (insertConn t id c) id = some c := by
  induction t with
  | nil => simp [insertConn, lookupConn]
  | cons kv rest ih =>
      obtain ⟨k, c0⟩ := kv
      by_cases hk : k = id
      · simp [lookupConn, hk] at h
      · simp [lookupConn, hk] at h
        simpa [insertConn, lookupConn, hk] using ih h

theorem lookupConn_insertConn_of_some (t : ClientMap) (id id0 : ConnId)
    (c c0 : Conn) (h : lookupConn t id0 = some c0) :
    lookupConn (insertConn t id c) id0 = some c0 := by
  induction t with
  | nil => simp [lookupConn] at h
  | cons kv rest ih =>
      obtain ⟨k, c1⟩ := kv
      by_cases hk : k = id0
      · simp [lookupConn, hk] at h ⊢
        simpa [insertConn, lookupConn, hk] using h
      · simp [lookupConn, hk] at h
        simpa [insertConn, lookupConn, hk] using ih h

theorem lookupConn_updateConn_self (t : ClientMap) (id : ConnId)
    (c c0 : Conn) (h : lookupConn t id = some c0) :
    lookupConn (updateConn t id c) id = some c := by
  induction t with
  | nil => simp [lookupConn] at h
  | cons kv rest ih =>
      obtain ⟨k, c1⟩ := kv
      by_cases hk : k = id
      · simp [updateConn, lookupConn, hk]
      · simp [lookupConn, hk] at h
        simpa [updateConn, lookupConn, hk] using ih h

theorem lookupConn_updateConn_ne (t : ClientMap) (id id0 : ConnId)
    (c : Conn) (h : id0 ≠ id) :
    lookupConn (updateConn t id c) id0 = lookupConn t id0 := by
  induction t with
  | nil => simp [updateConn]
  | cons kv rest ih =>
      obtain ⟨k, c1⟩ := kv
      by_cases hk : k = id
      · subst hk
        have hne : ¬ k = id0 := fun hh => h hh.symm
        simp [updateConn, lookupConn, hne]
      · by_cases hk0 : k = id0
        · simp [updateConn, lookupConn, hk, hk0, h]
        · simp [updateConn, lookupConn, hk, hk0, ih]

theorem tableKeys_updateConn (t : ClientMap) (id : ConnId) (c : Conn) :
    tableKeys (updateConn t id c) = tableKeys t := by
  induction t with
  | nil => simp [updateConn]
  | cons kv rest ih =>
      obtain ⟨k, c1⟩ := kv
      by_cases hk : k = id <;> simp [updateConn, tableKeys, hk] <;>
        simpa [tableKeys] using ih

theorem length_updateConn (t : ClientMap) (id : ConnId) (c : Conn) :
    (updateConn t id c).length = t.length := by
  induction t with
  | nil => simp [updateConn]
  | cons kv rest ih =>
      obtain ⟨k, c1⟩ := kv
      by_cases hk : k = id <;> simp [updateConn, hk, ih]

theorem tableKeys_insertConn (t : ClientMap) (id : ConnId) (c : Conn) :
    tableKeys (insertConn t id c) = tableKeys t ++ [id] := by
  simp [insertConn, tableKeys]

theorem lookupConn_insertConn_ne (t : ClientMap) (id id0 : ConnId)
    (c : Conn) (h : id0 ≠ id) :
    lookupConn (insertConn t id c) id0 = lookupConn t id0 := by
  induction t with
  | nil =>
      simp only [insertConn, List.nil_append, lookupConn]
      rw [if_neg (fun hh : id = id0 => h hh.symm)]
  | cons kv rest ih =>
      obtain ⟨k, c1⟩ := kv
      by_cases hk : k = id0
      · simp [insertConn, lookupConn, hk]
      · simpa [insertConn, lookupConn, hk] using ih

/-! ## Structural lemmas about the phases of one dispatch cycle -/

theorem Conn.ingest_tag (c : Conn) (e : Event) : (c.ingest e).tag = c.tag :=
  rfl

theorem Conn.ingest_streamFin (c : Conn) (e : Event) :
    (c.ingest e).streamFin = c.streamFin := rfl

theorem echoStep_tag (connId : ConnId) (c1 : Conn) (e : Event) :
    ((echoStep connId c1 e).1).tag = c1.tag := by
  unfold echoStep
  by_cases h1 : c1.established <;> by_cases h2 : c1.streamFin <;>
    by_cases h3 : e.streamSendFails <;> simp [h1, h2, h3]

theorem echoStep_fin_mono (connId : ConnId) (c1 : Conn) (e : Event)
    (h : c1.streamFin = true) :
    ((echoStep connId c1 e).1).streamFin = true := by
  unfold echoStep
  by_cases h1 : c1.established <;> simp [h1, h]

theorem echoStep_hello_of_fin (connId : ConnId) (c1 : Conn) (e : Event)
    (id : ConnId) (h : c1.streamFin = true) :
    countHello id (echoStep connId c1 e).2 = 0 := by
  unfold echoStep
  by_cases h1 : c1.established <;> simp [h1, h, countHello]

theorem echoStep_hello_le (connId : ConnId) (c1 : Conn) (e : Event)
    (id : ConnId) : countHello id (echoStep connId c1 e).2 ≤ 1 := by
  unfold echoStep
  by_cases h1 : c1.established <;> by_cases h2 : c1.streamFin <;>
    by_cases h3 : e.streamSendFails <;>
    simp [h1, h2, h3, countHello] <;> split <;> omega

theorem echoStep_hello_imp_fin (connId : ConnId) (c1 : Conn) (e : Event)
    (id : ConnId) (h : 1 ≤ countHello id (echoStep connId c1 e).2) :
    ((echoStep connId c1 e).1).streamFin = true := by
  unfold echoStep at h ⊢
  by_cases h1 : c1.established <;> by_cases h2 : c1.streamFin <;>
    by_cases h3 : e.streamSendFails <;>
    simp [h1, h2, h3, countHello] at h ⊢

theorem echoStep_hello_ne (connId : ConnId) (c1 : Conn) (e : Event)
    (id : ConnId) (h : connId ≠ id) :
    countHello id (echoStep connId c1 e).2 = 0 := by
  unfold echoStep
  by_cases h1 : c1.established <;> by_cases h2 : c1.streamFin <;>
    by_cases h3 : e.streamSendFails <;> simp [h1, h2, h3, countHello, h]

theorem echoStep_hello_success (connId : ConnId) (c1 : Conn) (e : Event)
    (h1 : c1.established = true) (h2 : c1.streamFin = false)
    (h3 : e.streamSendFails = false) :
    countHello connId (echoStep connId c1 e).2 = 1 := by
  unfold echoStep
  simp [h1, h2, h3, countHello]

theorem echoStep_countVN (connId : ConnId) (c1 : Conn) (e : Event) :
    countVN (echoStep connId c1 e).2 = 0 := by
  unfold echoStep
  by_cases h1 : c1.established <;> by_cases h2 : c1.streamFin <;>
    by_cases h3 : e.streamSendFails <;> simp [h1, h2, h3, countVN]

theorem echoStep_countPkt (connId : ConnId) (c1 : Conn) (e : Event) :
    countPkt (echoStep connId c1 e).2 = 0 := by
  unfold echoStep
  by_cases h1 : c1.established <;> by_cases h2 : c1.streamFin <;>
    by_cases h3 : e.streamSendFails <;> simp [h1, h2, h3, countPkt]

theorem flushStep_tag (c2 : Conn) (e : Event) :
    ((flushStep c2 e).1).tag = c2.tag := by
  unfold flushStep
  rcases hp : c2.pending with _ | ⟨p, rest⟩
  · simp
  · by_cases hs : e.sockSendFails <;> simp [hs]

theorem flushStep_streamFin (c2 : Conn) (e : Event) :
    ((flushStep c2 e).1).streamFin = c2.streamFin := by
  unfold flushStep
  rcases hp : c2.pending with _ | ⟨p, rest⟩
  · simp
  · by_cases hs : e.sockSendFails <;> simp [hs]

theorem flushStep_hello (c2 : Conn) (e : Event) (id : ConnId) :
    countHello id (flushStep c2 e).2 = 0 := by
  unfold flushStep
  rcases hp : c2.pending with _ | ⟨p, rest⟩
  · simp [countHello]
  · by_cases hs : e.sockSendFails <;> simp [hs, countHello]

theorem flushStep_countVN (c2 : Conn) (e : Event) :
    countVN (flushStep c2 e).2 = 0 := by
  unfold flushStep
  rcases hp : c2.pending with _ | ⟨p, rest⟩
  · simp [countVN]
  · by_cases hs : e.sockSendFails <;> simp [hs, countVN]

theorem flushStep_countPkt (c2 : Conn) (e : Event) :
    countPkt (flushStep c2 e).2 ≤ 1 := by
  unfold flushStep
  rcases hp : c2.pending with _ | ⟨p, rest⟩
  · simp [countPkt]
  · by_cases hs : e.sockSendFails <;> simp [hs, countPkt]

/-! ## Case equations for one iteration of the dispatch loop -/

theorem stepAfterEntry_eq (st : ServerState) (connId : ConnId) (c : Conn)
    (e : Event) :
    stepAfterEntry st connId c e =
      if e.recvFails then Outcome.next st [.logMsg "QUIC recv error"]
      else
        Outcome.next
          (ServerState.mk
            (updateConn st.clients connId
              (flushStep (echoStep connId (c.ingest e) e).1 e).1)
            st.nextTag)
          (Output.logMsg "Received bytes" ::
            (echoStep connId (c.ingest e) e).2 ++
            (flushStep (echoStep connId (c.ingest e) e).1 e).2) := rfl

theorem step_parse_none (st : ServerState) (e : Event)
    (h : e.parse = none) :
    step st e = .next st [.logMsg "Failed to parse header"] := by
  unfold step
  rw [h]

theorem step_vn_sendFail (st : ServerState) (e : Event) (hdr : Header)
    (hp : e.parse = some hdr) (hv : hdr.version ≠ QUIC_V1)
    (hs : e.sockSendFails = true) :
    step st e =
      .next st [.logMsg "Failed to send version negotiation packet"] := by
  unfold step
  rw [hp]
  simp [hv, hs]

theorem step_vn_ok (st : ServerState) (e : Event) (hdr : Header)
    (hp : e.parse = some hdr) (hv : hdr.version ≠ QUIC_V1)
    (hs : e.sockSendFails = false) :
    step st e =
      .next st [.vnSent (negotiate_version hdr.scid hdr.dcid) e.src] := by
  unfold step
  rw [hp]
  simp [hv, hs]

theorem step_found (st : ServerState) (e : Event) (hdr : Header) (c : Conn)
    (hp : e.parse = some hdr) (hv : hdr.version = QUIC_V1)
    (hl : lookupConn st.clients hdr.dcid = some c) :
    step st e = stepAfterEntry st hdr.dcid c e := by
  unfold step
  rw [hp]
  simp [hv, hl]

theorem step_accept_fail (st : ServerState) (e : Event) (hdr : Header)
    (hp : e.parse = some hdr) (hv : hdr.version = QUIC_V1)
    (hl : lookupConn st.clients hdr.dcid = none)
    (ha : e.acceptFails = true) :
    step st e =
      .panicked [.logMsg "QUIC accept error"] "Failed to accept connection" := by
  unfold step
  rw [hp]
  simp [hv, hl, ha]

theorem step_accept_ok (st : ServerState) (e : Event) (hdr : Header)
    (hp : e.parse = some hdr) (hv : hdr.version = QUIC_V1)
    (hl : lookupConn st.clients hdr.dcid = none)
    (ha : e.acceptFails = false) :
    step st e =
      stepAfterEntry
        { clients := insertConn st.clients hdr.dcid (Conn.accept st.nextTag),
          nextTag := st.nextTag + 1 }
        hdr.dcid (Conn.accept st.nextTag) e := by
  unfold step
  rw [hp]
  simp [hv, hl, ha]

/-- Exhaustive case analysis of `step`: every iteration is one of parse
failure, version negotiation (send failing or succeeding), routing to an
existing entry, accept panic, or accept plus routing to the new entry. -/
theorem step_cases (st : ServerState) (e : Event) :
    step st e = .next st [.logMsg "Failed to parse header"] ∨
    step st e = .next st [.logMsg "Failed to send version negotiation packet"] ∨
    (∃ hdr, e.parse = some hdr ∧
      step st e = .next st [.vnSent (negotiate_version hdr.scid hdr.dcid) e.src]) ∨
    (∃ hdr c, e.parse = some hdr ∧ hdr.version = QUIC_V1 ∧
      lookupConn st.clients hdr.dcid = some c ∧
      step st e = stepAfterEntry st hdr.dcid c e) ∨
    (∃ hdr, e.parse = some hdr ∧ hdr.version = QUIC_V1 ∧
      lookupConn st.clients hdr.dcid = none ∧
      step st e =
        .panicked [.logMsg "QUIC accept error"] "Failed to accept connection") ∨
    (∃ hdr, e.parse = some hdr ∧ hdr.version = QUIC_V1 ∧
      lookupConn st.clients hdr.dcid = none ∧
      step st e =
        stepAfterEntry
          { clients := insertConn st.clients hdr.dcid (Conn.accept st.nextTag),
            nextTag := st.nextTag + 1 }
          hdr.dcid (Conn.accept st.nextTag) e) := by
  rcases hp : e.parse with _ | hdr
  · exact Or.inl (step_parse_none st e hp)
  · by_cases hv : hdr.version = QUIC_V1
    · rcases hl : lookupConn st.clients hdr.dcid with _ | c
      · by_cases ha : e.acceptFails
        · exact Or.inr (Or.inr (Or.inr (Or.inr (Or.inl
            ⟨hdr, rfl, hv, hl, step_accept_fail st e hdr hp hv hl ha⟩))))
        · exact Or.inr (Or.inr (Or.inr (Or.inr (Or.inr
            ⟨hdr, rfl, hv, hl,
              step_accept_ok st e hdr hp hv hl (by simpa using ha)⟩))))
      · exact Or.inr (Or.inr (Or.inr (Or.inl
          ⟨hdr, c, rfl, hv, hl, step_found st e hdr c hp hv hl⟩)))
    · by_cases hs : e.sockSendFails
      · exact Or.inr (Or.inl (step_vn_sendFail st e hdr hp hv hs))
      · exact Or.inr (Or.inr (Or.inl
          ⟨hdr, rfl, step_vn_ok st e hdr hp hv (by simpa using hs)⟩))

theorem Outcome_next_inj {a c : ServerState} {b d : List Output}
    (h : Outcome.next a b = Outcome.next c d) : a = c ∧ b = d := by
  injection h with h1 h2
  exact ⟨h1, h2⟩

theorem stepAfterEntry_isNext (st : ServerState) (connId : ConnId) (c : Conn)
    (e : Event) :
    ∃ st' out, stepAfterEntry st connId c e = .next st' out := by
  rw [stepAfterEntry_eq]
  by_cases hr : e.recvFails
  · exact ⟨_, _, if_pos hr⟩
  · exact ⟨_, _, if_neg hr⟩

theorem stepAfterEntry_countVN (st : ServerState) (connId : ConnId)
    (c : Conn) (e : Event) :
    countVN (stepAfterEntry st connId c e).outs = 0 := by
  rw [stepAfterEntry_eq]
  by_cases hr : e.recvFails
  · simp [hr, Outcome.outs, countVN]
  · simp [hr, Outcome.outs, countVN, countVN_append, echoStep_countVN,
      flushStep_countVN]

theorem stepAfterEntry_countPkt (st : ServerState) (connId : ConnId)
    (c : Conn) (e : Event) :
    countPkt (stepAfterEntry st connId c e).outs ≤ 1 := by
  rw [stepAfterEntry_eq]
  by_cases hr : e.recvFails
  · simp [hr, Outcome.outs, countPkt]
  · simp [hr, Outcome.outs, countPkt, countPkt_append, echoStep_countPkt]
    exact flushStep_countPkt _ _

theorem stepAfterEntry_keys (st : ServerState) (connId : ConnId) (c : Conn)
    (e : Event) (st' : ServerState) (out : List Output)
    (h : stepAfterEntry st connId c e = .next st' out) :
    tableKeys st'.clients = tableKeys st.clients ∧
    st'.clients.length = st.clients.length ∧ st'.nextTag = st.nextTag := by
  rw [stepAfterEntry_eq] at h
  by_cases hr : e.recvFails
  · rw [if_pos hr] at h
    obtain ⟨rfl, rfl⟩ := Outcome_next_inj h
    exact ⟨rfl, rfl, rfl⟩
  · rw [if_neg hr] at h
    obtain ⟨rfl, rfl⟩ := Outcome_next_inj h
    exact ⟨tableKeys_updateConn _ _ _, length_updateConn _ _ _, rfl⟩

theorem stepAfterEntry_tag (st : ServerState) (connId : ConnId) (c : Conn)
    (e : Event) (st' : ServerState) (out : List Output) (id : ConnId)
    (c0 : Conn) (hpre : lookupConn st.clients connId = some c)
    (h : stepAfterEntry st connId c e = .next st' out)
    (hl : lookupConn st.clients id = some c0) :
    ∃ c', lookupConn st'.clients id = some c' ∧ c'.tag = c0.tag := by
  rw [stepAfterEntry_eq] at h
  by_cases hr : e.recvFails
  · rw [if_pos hr] at h
    obtain ⟨rfl, rfl⟩ := Outcome_next_inj h
    exact ⟨c0, hl, rfl⟩
  · rw [if_neg hr] at h
    obtain ⟨rfl, rfl⟩ := Outcome_next_inj h
    by_cases hid : connId = id
    · subst hid
      have hc : c0 = c := by
        rw [hpre] at hl
        injection hl with hl2
        exact hl2.symm
      subst hc
      refine ⟨(flushStep (echoStep connId (c0.ingest e) e).1 e).1,
        lookupConn_updateConn_self _ _ _ _ hpre, ?_⟩
      rw [flushStep_tag, echoStep_tag, Conn.ingest_tag]
    · have hne : id ≠ connId := fun hh => hid hh.symm
      refine ⟨c0, ?_, rfl⟩
      simpa [lookupConn_updateConn_ne _ _ _ _ hne] using hl

theorem stepAfterEntry_hello (st : ServerState) (connId : ConnId) (c : Conn)
    (e : Event) (st' : ServerState) (out : List Output) (id : ConnId)
    (hpre : lookupConn st.clients connId = some c)
    (h : stepAfterEntry st connId c e = .next st' out) :
    countHello id out ≤ 1 ∧
    (entryFin st id = true → entryFin st' id = true ∧ countHello id out = 0) ∧
    (1 ≤ countHello id out → entryFin st' id = true) := by
  rw [stepAfterEntry_eq] at h
  by_cases hr : e.recvFails
  · rw [if_pos hr] at h
    obtain ⟨rfl, rfl⟩ := Outcome_next_inj h
    refine ⟨by simp [countHello], fun hf => ⟨hf, by simp [countHello]⟩, ?_⟩
    intro h1
    simp [countHello] at h1
  · rw [if_neg hr] at h
    obtain ⟨rfl, rfl⟩ := Outcome_next_inj h
    have hout : countHello id
        (Output.logMsg "Received bytes" ::
          (echoStep connId (c.ingest e) e).2 ++
          (flushStep (echoStep connId (c.ingest e) e).1 e).2) =
        countHello id (echoStep connId (c.ingest e) e).2 := by
      simp [countHello, countHello_append, flushStep_hello]
    by_cases hid : connId = id
    · subst hid
      have hfinst : entryFin st connId = c.streamFin := by
        simp [entryFin, hpre]
      have hlook : lookupConn
          (updateConn st.clients connId
            (flushStep (echoStep connId (c.ingest e) e).1 e).1) connId =
          some (flushStep (echoStep connId (c.ingest e) e).1 e).1 :=
        lookupConn_updateConn_self _ _ _ _ hpre
      have hfinst2 : entryFin
          (ServerState.mk
            (updateConn st.clients connId
              (flushStep (echoStep connId (c.ingest e) e).1 e).1)
            st.nextTag) connId =
          ((echoStep connId (c.ingest e) e).1).streamFin := by
        simp [entryFin, hlook, flushStep_streamFin]
      refine ⟨by rw [hout]; exact echoStep_hello_le _ _ _ _, ?_, ?_⟩
      · intro hf
        have hc1 : ((c.ingest e)).streamFin = true := by
          rw [Conn.ingest_streamFin, ← hfinst]
          exact hf
        constructor
        · rw [hfinst2]
          exact echoStep_fin_mono _ _ _ hc1
        · rw [hout]
          exact echoStep_hello_of_fin _ _ _ _ hc1
      · intro h1
        rw [hout] at h1
        rw [hfinst2]
        exact echoStep_hello_imp_fin _ _ _ _ h1
    · have h0 : countHello id (echoStep connId (c.ingest e) e).2 = 0 :=
        echoStep_hello_ne _ _ _ _ hid
      have hne : id ≠ connId := fun hh => hid hh.symm
      have hef : entryFin
          (ServerState.mk
            (updateConn st.clients connId
              (flushStep (echoStep connId (c.ingest e) e).1 e).1)
            st.nextTag) id = entryFin st id := by
        simp [entryFin, lookupConn_updateConn_ne _ _ _ _ hne]
      refine ⟨?_, fun hf => ⟨by rw [hef]; exact hf, by rw [hout, h0]⟩, ?_⟩
      · rw [hout, h0]
        omega
      · intro h1
        rw [hout, h0] at h1
        omega

theorem step_hello (st : ServerState) (e : Event) (st' : ServerState)
    (out : List Output) (id : ConnId) (h : step st e = .next st' out) :
    countHello id out ≤ 1 ∧
    (entryFin st id = true → entryFin st' id = true ∧ countHello id out = 0) ∧
    (1 ≤ countHello id out → entryFin st' id = true) := by
  rcases step_cases st e with hc | hc | ⟨hdr, hp, hc⟩ |
    ⟨hdr, c, hp, hv, hl, hc⟩ | ⟨hdr, hp, hv, hl, hc⟩ | ⟨hdr, hp, hv, hl, hc⟩
  · rw [hc] at h
    obtain ⟨rfl, rfl⟩ := Outcome_next_inj h
    refine ⟨by simp [countHello], fun hf => ⟨hf, by simp [countHello]⟩, ?_⟩
    intro h1
    simp [countHello] at h1
  · rw [hc] at h
    obtain ⟨rfl, rfl⟩ := Outcome_next_inj h
    refine ⟨by simp [countHello], fun hf => ⟨hf, by simp [countHello]⟩, ?_⟩
    intro h1
    simp [countHello] at h1
  · rw [hc] at h
    obtain ⟨rfl, rfl⟩ := Outcome_next_inj h
    refine ⟨by simp [countHello], fun hf => ⟨hf, by simp [countHello]⟩, ?_⟩
    intro h1
    simp [countHello] at h1
  · rw [hc] at h
    exact stepAfterEntry_hello _ _ _ _ _ _ _ hl h
  · rw [hc] at h
    exact Outcome.noConfusion h
  · rw [hc] at h
    have hpre := lookupConn_insertConn_self st.clients hdr.dcid
      (Conn.accept st.nextTag) hl
    have hmain := stepAfterEntry_hello _ _ _ _ _ _ id hpre h
    refine ⟨hmain.1, ?_, hmain.2.2⟩
    intro hf
    by_cases hid : id = hdr.dcid
    · subst hid
      simp [entryFin, hl] at hf
    · have hef : entryFin
          (ServerState.mk
            (insertConn st.clients hdr.dcid (Conn.accept st.nextTag))
            (st.nextTag + 1)) id = entryFin st id := by
        simp [entryFin, lookupConn_insertConn_ne _ _ _ _ hid]
      exact hmain.2.1 (by rw [hef]; exact hf)

theorem run_nil (st : ServerState) : run st [] = .running st [] := rfl

theorem run_cons_recvErr (st : ServerState) (msg : String)
    (rest : List NetEvent) :
    run st (.recvErr msg :: rest) = .fatal [] ("IO Error: " ++ msg) := rfl

theorem run_cons_dgram_next (st : ServerState) (e : Event)
    (rest : List NetEvent) (st1 : ServerState) (out1 : List Output)
    (h : step st e = .next st1 out1) :
    run st (.dgram e :: rest) =
      match run st1 rest with
      | .running st2 out2 => .running st2 (out1 ++ out2)
      | .fatal out2 m => .fatal (out1 ++ out2) m
      | .panicked out2 m => .panicked (out1 ++ out2) m := by
  conv_lhs => unfold run
  rw [h]

theorem run_cons_dgram_panicked (st : ServerState) (e : Event)
    (rest : List NetEvent) (out1 : List Output) (m : String)
    (h : step st e = .panicked out1 m) :
    run st (.dgram e :: rest) = .panicked out1 m := by
  unfold run
  rw [h]

theorem run_outs_cons_dgram (st : ServerState) (e : Event)
    (rest : List NetEvent) (st1 : ServerState) (out : List Output)
    (h : step st e = .next st1 out) :
    (run st (.dgram e :: rest)).outs = out ++ (run st1 rest).outs := by
  rw [run_cons_dgram_next st e rest st1 out h]
  rcases hres : run st1 rest with ⟨st2, out2⟩ | ⟨out2, m⟩ | ⟨out2, m⟩ <;>
    simp [RunResult.outs]

theorem step_panicked_outs (st : ServerState) (e : Event)
    (out : List Output) (msg : String)
    (h : step st e = .panicked out msg) :
    out = [.logMsg "QUIC accept error"] := by
  rcases step_cases st e with hc | hc | ⟨hdr, hp, hc⟩ |
    ⟨hdr, c, hp, hv, hl, hc⟩ | ⟨hdr, hp, hv, hl, hc⟩ | ⟨hdr, hp, hv, hl, hc⟩
  · rw [hc] at h
    exact Outcome.noConfusion h
  · rw [hc] at h
    exact Outcome.noConfusion h
  · rw [hc] at h
    exact Outcome.noConfusion h
  · rw [hc] at h
    obtain ⟨st2, out2, h2⟩ := stepAfterEntry_isNext st hdr.dcid c e
    rw [h2] at h
    exact Outcome.noConfusion h
  · rw [hc] at h
    injection h with h1 h2
    exact h1.symm
  · rw [hc] at h
    obtain ⟨st2, out2, h2⟩ := stepAfterEntry_isNext _ hdr.dcid _ e
    rw [h2] at h
    exact Outcome.noConfusion h

theorem run_hello_invariant (events : List NetEvent) :
    ∀ st id, countHello id (run st events).outs +
      (if entryFin st id = true then 1 else 0) ≤ 1 := by
  induction events with
  | nil =>
      intro st id
      rw [run_nil]
      show countHello id ([] : List Output) + _ ≤ 1
      by_cases hf : entryFin st id = true
      · rw [if_pos hf]
        simp [countHello]
      · rw [if_neg hf]
        simp [countHello]
  | cons ev rest ih =>
      intro st id
      cases ev with
      | recvErr msg =>
          rw [run_cons_recvErr]
          show countHello id ([] : List Output) + _ ≤ 1
          by_cases hf : entryFin st id = true
          · rw [if_pos hf]
            simp [countHello]
          · rw [if_neg hf]
            simp [countHello]
      | dgram e =>
          rcases hstep : step st e with ⟨st1, out⟩ | ⟨out, msg⟩
          · have houts := run_outs_cons_dgram st e rest st1 out hstep
            rw [houts, countHello_append]
            obtain ⟨hle, himp1, himp2⟩ := step_hello st e st1 out id hstep
            have hih := ih st1 id
            by_cases hf : entryFin st id = true
            · obtain ⟨hf1, hz⟩ := himp1 hf
              rw [if_pos hf1] at hih
              rw [if_pos hf]
              omega
            · rw [if_neg hf]
              by_cases hf1 : entryFin st1 id = true
              · rw [if_pos hf1] at hih
                omega
              · have hz : countHello id out = 0 := by
                  by_contra hnz
                  exact hf1 (himp2 (by omega))
                rw [if_neg hf1] at hih
                omega
          · have hout0 := step_panicked_outs st e out msg hstep
            rw [run_cons_dgram_panicked st e rest out msg hstep]
            subst hout0
            show countHello id [Output.logMsg "QUIC accept error"] + _ ≤ 1
            by_cases hf : entryFin st id = true
            · rw [if_pos hf]
              simp [countHello]
            · rw [if_neg hf]
              simp [countHello]

theorem step_keys_monotone (st : ServerState) (e : Event)
    (st' : ServerState) (out : List Output) (h : step st e = .next st' out) :
    (∀ id, id ∈ tableKeys st.clients → id ∈ tableKeys st'.clients) ∧
    st.clients.length ≤ st'.clients.length := by
  rcases step_cases st e with hc | hc | ⟨hdr, hp, hc⟩ |
    ⟨hdr, c, hp, hv, hl, hc⟩ | ⟨hdr, hp, hv, hl, hc⟩ | ⟨hdr, hp, hv, hl, hc⟩
  · rw [hc] at h
    obtain ⟨rfl, rfl⟩ := Outcome_next_inj h
    exact ⟨fun id hm => hm, le_refl _⟩
  · rw [hc] at h
    obtain ⟨rfl, rfl⟩ := Outcome_next_inj h
    exact ⟨fun id hm => hm, le_refl _⟩
  · rw [hc] at h
    obtain ⟨rfl, rfl⟩ := Outcome_next_inj h
    exact ⟨fun id hm => hm, le_refl _⟩
  · rw [hc] at h
    obtain ⟨hk, hlen, _⟩ := stepAfterEntry_keys _ _ _ _ _ _ h
    exact ⟨fun id hm => by rw [hk]; exact hm, by omega⟩
  · rw [hc] at h
    exact Outcome.noConfusion h
  · rw [hc] at h
    obtain ⟨hk, hlen, _⟩ := stepAfterEntry_keys _ _ _ _ _ _ h
    constructor
    · intro id hm
      rw [hk]
      rw [tableKeys_insertConn]
      exact List.mem_append_left _ hm
    · rw [insertConn, List.length_append] at hlen
      simp at hlen
      omega

theorem run_keys_monotone (events : List NetEvent) :
    ∀ st st' out, run st events = .running st' out →
    (∀ id, id ∈ tableKeys st.clients → id ∈ tableKeys st'.clients) ∧
    st.clients.length ≤ st'.clients.length := by
  induction events with
  | nil =>
      intro st st' out h
      rw [run_nil] at h
      injection h with h1 h2
      subst h1
      exact ⟨fun id hm => hm, le_refl _⟩
  | cons ev rest ih =>
      intro st st' out h
      cases ev with
      | recvErr msg =>
          rw [run_cons_recvErr] at h
          exact RunResult.noConfusion h
      | dgram e =>
          rcases hstep : step st e with ⟨st1, out1⟩ | ⟨out1, msg⟩
          · rw [run_cons_dgram_next st e rest st1 out1 hstep] at h
            rcases hres : run st1 rest with ⟨st2, out2⟩ | ⟨out2, m⟩ |
              ⟨out2, m⟩ <;> rw [hres] at h
            · injection h with h1 h2
              subst h1
              obtain ⟨hks, hls⟩ := step_keys_monotone st e st1 out1 hstep
              obtain ⟨hkr, hlr⟩ := ih st1 st2 out2 hres
              exact ⟨fun id hm => hkr id (hks id hm), le_trans hls hlr⟩
            · exact RunResult.noConfusion h
            · exact RunResult.noConfusion h
          · rw [run_cons_dgram_panicked st e rest out1 msg hstep] at h
            exact RunResult.noConfusion h

theorem Conn.ingest_established (c : Conn) (e : Event) :
    (c.ingest e).established = (c.established || e.makesEstablished) := rfl

theorem step_nodup (st : ServerState) (e : Event) (st' : ServerState)
    (out : List Output) (hnd : (tableKeys st.clients).Nodup)
    (h : step st e = .next st' out) : (tableKeys st'.clients).Nodup := by
  rcases step_cases st e with hc | hc | ⟨hdr, hp, hc⟩ |
    ⟨hdr, c, hp, hv, hl, hc⟩ | ⟨hdr, hp, hv, hl, hc⟩ | ⟨hdr, hp, hv, hl, hc⟩
  · rw [hc] at h
    obtain ⟨rfl, rfl⟩ := Outcome_next_inj h
    exact hnd
  · rw [hc] at h
    obtain ⟨rfl, rfl⟩ := Outcome_next_inj h
    exact hnd
  · rw [hc] at h
    obtain ⟨rfl, rfl⟩ := Outcome_next_inj h
    exact hnd
  · rw [hc] at h
    obtain ⟨hk, _, _⟩ := stepAfterEntry_keys _ _ _ _ _ _ h
    rw [hk]
    exact hnd
  · rw [hc] at h
    exact Outcome.noConfusion h
  · rw [hc] at h
    obtain ⟨hk, _, _⟩ := stepAfterEntry_keys _ _ _ _ _ _ h
    rw [hk, tableKeys_insertConn]
    have hmem : hdr.dcid ∉ tableKeys st.clients :=
      (lookupConn_eq_none_iff st.clients hdr.dcid).mp hl
    simp [List.nodup_append, hnd, hmem]
  
theorem step_tag_stable (st : ServerState) (e : Event) (st' : ServerState)
    (out : List Output) (id : ConnId) (c : Conn)
    (h : step st e = .next st' out)
    (hl : lookupConn st.clients id = some c) :
    ∃ c', lookupConn st'.clients id = some c' ∧ c'.tag = c.tag := by
  rcases step_cases st e with hc | hc | ⟨hdr, hp, hc⟩ |
    ⟨hdr, c0, hp, hv, hl0, hc⟩ | ⟨hdr, hp, hv, hl0, hc⟩ | ⟨hdr, hp, hv, hl0, hc⟩
  · rw [hc] at h
    obtain ⟨rfl, rfl⟩ := Outcome_next_inj h
    exact ⟨c, hl, rfl⟩
  · rw [hc] at h
    obtain ⟨rfl, rfl⟩ := Outcome_next_inj h
    exact ⟨c, hl, rfl⟩
  · rw [hc] at h
    obtain ⟨rfl, rfl⟩ := Outcome_next_inj h
    exact ⟨c, hl, rfl⟩
  · rw [hc] at h
    exact stepAfterEntry_tag _ _ _ _ _ _ _ _ hl0 h hl
  · rw [hc] at h
    exact Outcome.noConfusion h
  · rw [hc] at h
    have hne : id ≠ hdr.dcid := by
      intro hh
      rw [hh, hl0] at hl
      exact Option.noConfusion hl
    have hpre := lookupConn_insertConn_self st.clients hdr.dcid
      (Conn.accept st.nextTag) hl0
    have hl1 : lookupConn
        (insertConn st.clients hdr.dcid (Conn.accept st.nextTag)) id =
        some c :=
      lookupConn_insertConn_of_some _ _ _ _ _ hl
    exact stepAfterEntry_tag _ _ _ _ _ _ _ _ hpre h hl1

theorem step_isNext_of_acceptOk (st : ServerState) (e : Event)
    (ha : e.acceptFails = false) :
    ∃ st' out, step st e = .next st' out := by
  rcases step_cases st e with hc | hc | ⟨hdr, hp, hc⟩ |
    ⟨hdr, c, hp, hv, hl, hc⟩ | ⟨hdr, hp, hv, hl, hc⟩ | ⟨hdr, hp, hv, hl, hc⟩
  · exact ⟨_, _, hc⟩
  · exact ⟨_, _, hc⟩
  · exact ⟨_, _, hc⟩
  · rw [hc]
    exact stepAfterEntry_isNext _ _ _ _
  · rw [step_accept_ok st e hdr hp hv hl ha] at hc
    obtain ⟨st2, out2, h2⟩ := stepAfterEntry_isNext
      (ServerState.mk (insertConn st.clients hdr.dcid (Conn.accept st.nextTag))
        (st.nextTag + 1)) hdr.dcid (Conn.accept st.nextTag) e
    rw [h2] at hc
    exact Outcome.noConfusion hc
  · rw [hc]
    exact stepAfterEntry_isNext _ _ _ _

/-! ## Claim theorems -/

/-- Claim C1 (code_bug): the claim says an accept failure for an unseen
identifier is logged, the datagram discarded, and the dispatch loop
continues to process subsequent datagrams. The code (lib.rs lines 105–108)
instead logs the error and then executes `panic!`, terminating the loop:
evaluated at a failing accept, the run panics and the following well-formed
datagram for a different identifier is never processed. -/
theorem accept_failure_panics_run :
    run ServerState.init
      [NetEvent.dgram
         { src := 3,
           parse := some { version := 1, scid := [6], dcid := [2] },
           acceptFails := true, recvFails := false, makesEstablished := false,
           produces := [], streamSendFails := false, sockSendFails := false },
       NetEvent.dgram
         { src := 4,
           parse := some { version := 1, scid := [7], dcid := [3] },
           acceptFails := false, recvFails := false, makesEstablished := false,
           produces := [], streamSendFails := false, sockSendFails := false }] =
      .panicked [.logMsg "QUIC accept error"] "Failed to accept connection" := by
  rfl

/-- Claim C2 counterexample: a dispatch cycle for a connection with two
pending outgoing packets sends only the first and ends the cycle with the
second still pending in the engine, refuting "at the end of a cycle the
engine has no pending outgoing packet for that connection". -/
theorem flush_leaves_pending_counterexample :
    step
      { clients :=
          [([5],
            { tag := 0, established := false, streamFin := false,
              pending := [{ bytes := [9], dst := 3 }, { bytes := [8], dst := 3 }] })],
        nextTag := 1 }
      { src := 3,
        parse := some { version := 1, scid := [6], dcid := [5] },
        acceptFails := false, recvFails := false, makesEstablished := false,
        produces := [], streamSendFails := false, sockSendFails := false } =
    .next
      { clients :=
          [([5],
            { tag := 0, established := false, streamFin := false,
              pending := [{ bytes := [8], dst := 3 }] })],
        nextTag := 1 }
      [.logMsg "Received bytes", .pktSent [9] 3] := by
  rfl

/-- Claim C2 (amended): after feeding a datagram to a connection, the
dispatcher invokes the engine's outgoing-packet production operation exactly
once per cycle (lib.rs lines 139–153 contain a single `conn.send` call, not
a drain loop), so at most one outgoing packet is sent per dispatch cycle and
further pending packets remain queued in the engine. -/
theorem flush_at_most_one_packet_per_cycle (st : ServerState) (e : Event) :
    countPkt (step st e).outs ≤ 1 := by
  rcases step_cases st e with hc | hc | ⟨hdr, hp, hc⟩ |
    ⟨hdr, c, hp, hv, hl, hc⟩ | ⟨hdr, hp, hv, hl, hc⟩ | ⟨hdr, hp, hv, hl, hc⟩
  · rw [hc]
    simp [Outcome.outs, countPkt]
  · rw [hc]
    simp [Outcome.outs, countPkt]
  · rw [hc]
    simp [Outcome.outs, countPkt]
  · rw [hc]
    exact stepAfterEntry_countPkt _ _ _ _
  · rw [hc]
    simp [Outcome.outs, countPkt]
  · rw [hc]
    exact stepAfterEntry_countPkt _ _ _ _

/-- Claim C3: for a datagram whose sniffed version differs from the
configured version (and whose socket send succeeds), the server sends
exactly one version-negotiation datagram, addressed to the datagram's
source, listing the configured version, with the two identifiers swapped;
the server state — in particular the Connection Table — is unchanged. -/
theorem version_mismatch_negotiation (st : ServerState) (e : Event)
    (hdr : Header) (hp : e.parse = some hdr) (hv : hdr.version ≠ QUIC_V1)
    (hs : e.sockSendFails = false) :
    step st e = .next st
      [.vnSent { versions := [QUIC_V1], scid := hdr.dcid, dcid := hdr.scid }
        e.src] := by
  rw [step_vn_ok st e hdr hp hv hs]
  rfl

/-- Witness for C3 at a concrete datagram with version 2. -/
theorem version_mismatch_negotiation_witness :
    step ServerState.init
      { src := 9,
        parse := some { version := 2, scid := [1], dcid := [4] },
        acceptFails := false, recvFails := false, makesEstablished := false,
        produces := [], streamSendFails := false, sockSendFails := false } =
    .next ServerState.init
      [.vnSent { versions := [1], scid := [4], dcid := [1] } 9] :=
  version_mismatch_negotiation ServerState.init _
    { version := 2, scid := [1], dcid := [4] } rfl (by decide) rfl

/-- Claim C4: over any run from the initial state the echo responder sends
its fixed message at most once per connection, no matter how many datagrams
arrive; and in a cycle where the connection is established after ingest, its
stream not yet finished, and the engine calls succeed, it is sent exactly
once. -/
theorem hello_sent_exactly_once :
    (∀ events id, countHello id (run ServerState.init events).outs ≤ 1) ∧
    (∀ st e hdr c, e.parse = some hdr → hdr.version = QUIC_V1 →
      lookupConn st.clients hdr.dcid = some c → e.recvFails = false →
      (c.established || e.makesEstablished) = true → c.streamFin = false →
      e.streamSendFails = false →
      countHello hdr.dcid (step st e).outs = 1) := by
  constructor
  · intro events id
    have h := run_hello_invariant events ServerState.init id
    have hf : entryFin ServerState.init id = false := rfl
    simpa [hf] using h
  · intro st e hdr c hp hv hl hr hest hfin hss
    rw [step_found st e hdr c hp hv hl, stepAfterEntry_eq,
      if_neg (by simp [hr])]
    simp only [Outcome.outs]
    have hsucc := echoStep_hello_success hdr.dcid (c.ingest e) e
      ((Conn.ingest_established c e).trans hest)
      ((Conn.ingest_streamFin c e).trans hfin) hss
    simp [countHello, countHello_append, flushStep_hello, hsucc]

/-- Witness for C4: a run with two datagrams for the same connection sends
the message at most once; a concrete established cycle sends it exactly
once. -/
theorem hello_sent_exactly_once_witness :
    countHello [5]
      (run ServerState.init
        [NetEvent.dgram
           { src := 3,
             parse := some { version := 1, scid := [6], dcid := [5] },
             acceptFails := false, recvFails := false,
             makesEstablished := true, produces := [],
             streamSendFails := false, sockSendFails := false },
         NetEvent.dgram
           { src := 3,
             parse := some { version := 1, scid := [6], dcid := [5] },
             acceptFails := false, recvFails := false,
             makesEstablished := true, produces := [],
             streamSendFails := false, sockSendFails := false }]).outs ≤ 1 ∧
    countHello [5]
      (step
        { clients :=
            [([5],
              { tag := 0, established := true, streamFin := false,
                pending := [] })],
          nextTag := 1 }
        { src := 3,
          parse := some { version := 1, scid := [6], dcid := [5] },
          acceptFails := false, recvFails := false, makesEstablished := false,
          produces := [], streamSendFails := false,
          sockSendFails := false }).outs = 1 :=
  ⟨hello_sent_exactly_once.1 _ [5],
   hello_sent_exactly_once.2
     { clients :=
         [([5],
           { tag := 0, established := true, streamFin := false,
             pending := [] })],
       nextTag := 1 }
     { src := 3,
       parse := some { version := 1, scid := [6], dcid := [5] },
       acceptFails := false, recvFails := false, makesEstablished := false,
       produces := [], streamSendFails := false, sockSendFails := false }
     { version := 1, scid := [6], dcid := [5] }
     { tag := 0, established := true, streamFin := false, pending := [] }
     rfl rfl rfl rfl rfl rfl rfl⟩

/-- Claim C5: the Connection Table never holds two states under one
identifier (key uniqueness is preserved by every continuing dispatch
cycle), a live identifier is never rebound to a different connection (the
creation tag found under a key never changes across a cycle), and a create
of an entry followed immediately by a lookup of the same identifier returns
the just-created state. -/
theorem connection_table_unique_binding :
    (∀ st e st' out, (tableKeys st.clients).Nodup →
      step st e = .next st' out → (tableKeys st'.clients).Nodup) ∧
    (∀ st e st' out id c, step st e = .next st' out →
      lookupConn st.clients id = some c →
      ∃ c', lookupConn st'.clients id = some c' ∧ c'.tag = c.tag) ∧
    (∀ t id c, lookupConn t id = none →
      lookupConn (insertConn t id c) id = some c) :=
  ⟨fun st e st' out hnd h => step_nodup st e st' out hnd h,
   fun st e st' out id c h hl => step_tag_stable st e st' out id c h hl,
   fun t id c h => lookupConn_insertConn_self t id c h⟩

/-- Witness for C5: uniqueness, stability and create-lookup at concrete
tables and cycles. -/
theorem connection_table_unique_binding_witness :
    (tableKeys (ServerState.init).clients).Nodup ∧
    (∃ c', lookupConn
        [([5],
          ({ tag := 0, established := false, streamFin := false,
             pending := [] } : Conn))] [5] = some c' ∧ c'.tag = 0) ∧
    lookupConn
      (insertConn [] [5]
        { tag := 0, established := false, streamFin := false, pending := [] })
      [5] =
      some { tag := 0, established := false, streamFin := false,
             pending := [] } :=
  ⟨connection_table_unique_binding.1 ServerState.init
     { src := 3, parse := none, acceptFails := false, recvFails := false,
       makesEstablished := false, produces := [], streamSendFails := false,
       sockSendFails := false }
     ServerState.init [.logMsg "Failed to parse header"] List.nodup_nil rfl,
   connection_table_unique_binding.2.1
     { clients :=
         [([5],
           { tag := 0, established := false, streamFin := false,
             pending := [] })],
       nextTag := 1 }
     { src := 3,
       parse := some { version := 1, scid := [6], dcid := [5] },
       acceptFails := false, recvFails := true, makesEstablished := false,
       produces := [], streamSendFails := false, sockSendFails := false }
     { clients :=
         [([5],
           { tag := 0, established := false, streamFin := false,
             pending := [] })],
       nextTag := 1 }
     [.logMsg "QUIC recv error"] [5]
     { tag := 0, established := false, streamFin := false, pending := [] }
     rfl rfl,
   connection_table_unique_binding.2.2 [] [5]
     { tag := 0, established := false, streamFin := false, pending := [] }
     rfl⟩

/-- Claim C6: a datagram whose sniffed version equals the configured
version never triggers a version-negotiation datagram in response. -/
theorem version_match_no_negotiation (st : ServerState) (e : Event)
    (hdr : Header) (hp : e.parse = some hdr) (hv : hdr.version = QUIC_V1) :
    countVN (step st e).outs = 0 := by
  rcases hl : lookupConn st.clients hdr.dcid with _ | c
  · by_cases ha : e.acceptFails
    · rw [step_accept_fail st e hdr hp hv hl ha]
      simp [Outcome.outs, countVN]
    · rw [step_accept_ok st e hdr hp hv hl (by simpa using ha)]
      exact stepAfterEntry_countVN _ _ _ _
  · rw [step_found st e hdr c hp hv hl]
    exact stepAfterEntry_countVN _ _ _ _

/-- Witness for C6 at a concrete matching-version datagram. -/
theorem version_match_no_negotiation_witness :
    countVN
      (step ServerState.init
        { src := 3,
          parse := some { version := 1, scid := [6], dcid := [5] },
          acceptFails := false, recvFails := false, makesEstablished := false,
          produces := [], streamSendFails := false,
          sockSendFails := false }).outs = 0 :=
  version_match_no_negotiation ServerState.init _
    { version := 1, scid := [6], dcid := [5] } rfl rfl

/-- Claim C7: a header parse failure yields a logged discard with the state
untouched; an engine ingest failure yields a logged discard and the loop
continues; a stream-send failure still yields a normal continuation — none
of these failures produces anything but a `next` outcome of the loop body,
so none can abort the entry point. -/
theorem per_datagram_failures_recoverable :
    (∀ st e, e.parse = none →
      step st e = .next st [.logMsg "Failed to parse header"]) ∧
    (∀ st e hdr, e.parse = some hdr → hdr.version = QUIC_V1 →
      e.recvFails = true → e.acceptFails = false →
      ∃ st', step st e = .next st' [.logMsg "QUIC recv error"]) ∧
    (∀ st e, e.streamSendFails = true → e.acceptFails = false →
      ∃ st' out, step st e = .next st' out) := by
  refine ⟨fun st e hp => step_parse_none st e hp, ?_,
    fun st e _ ha => step_isNext_of_acceptOk st e ha⟩
  intro st e hdr hp hv hr ha
  rcases hl : lookupConn st.clients hdr.dcid with _ | c
  · rw [step_accept_ok st e hdr hp hv hl ha, stepAfterEntry_eq, if_pos hr]
    exact ⟨_, rfl⟩
  · rw [step_found st e hdr c hp hv hl, stepAfterEntry_eq, if_pos hr]
    exact ⟨st, rfl⟩

/-- Witness for C7: parse failure, ingest failure and stream-send failure
at concrete datagrams all continue the loop. -/
theorem per_datagram_failures_recoverable_witness :
    step ServerState.init
      { src := 3, parse := none, acceptFails := false, recvFails := false,
        makesEstablished := false, produces := [], streamSendFails := false,
        sockSendFails := false } =
      .next ServerState.init [.logMsg "Failed to parse header"] ∧
    (∃ st', step ServerState.init
      { src := 3,
        parse := some { version := 1, scid := [6], dcid := [5] },
        acceptFails := false, recvFails := true, makesEstablished := false,
        produces := [], streamSendFails := false, sockSendFails := false } =
      .next st' [.logMsg "QUIC recv error"]) ∧
    (∃ st' out, step ServerState.init
      { src := 3,
        parse := some { version := 1, scid := [6], dcid := [5] },
        acceptFails := false, recvFails := false, makesEstablished := true,
        produces := [], streamSendFails := true, sockSendFails := false } =
      .next st' out) :=
  ⟨per_datagram_failures_recoverable.1 ServerState.init
     { src := 3, parse := none, acceptFails := false, recvFails := false,
       makesEstablished := false, produces := [], streamSendFails := false,
       sockSendFails := false } rfl,
   per_datagram_failures_recoverable.2.1 ServerState.init
     { src := 3,
       parse := some { version := 1, scid := [6], dcid := [5] },
       acceptFails := false, recvFails := true, makesEstablished := false,
       produces := [], streamSendFails := false, sockSendFails := false }
     { version := 1, scid := [6], dcid := [5] } rfl rfl rfl rfl,
   per_datagram_failures_recoverable.2.2 ServerState.init
     { src := 3,
       parse := some { version := 1, scid := [6], dcid := [5] },
       acceptFails := false, recvFails := false, makesEstablished := true,
       produces := [], streamSendFails := true, sockSendFails := false }
     rfl rfl⟩

/-- Claim C8 counterexample: a socket send failure while transmitting a
version-negotiation datagram is merely logged — the run result is still
`running` and the next datagram is processed — refuting "every socket send
I/O failure aborts the entry point". -/
theorem send_failure_not_fatal_counterexample :
    run ServerState.init
      [NetEvent.dgram
         { src := 3,
           parse := some { version := 2, scid := [6], dcid := [5] },
           acceptFails := false, recvFails := false, makesEstablished := false,
           produces := [], streamSendFails := false, sockSendFails := true },
       NetEvent.dgram
         { src := 4,
           parse := some { version := 2, scid := [7], dcid := [8] },
           acceptFails := false, recvFails := false, makesEstablished := false,
           produces := [], streamSendFails := false, sockSendFails := false }] =
      .running ServerState.init
        [.logMsg "Failed to send version negotiation packet",
         .vnSent { versions := [1], scid := [8], dcid := [7] } 4] := by
  rfl

/-- Claim C8 (amended): socket bind failures and socket receive failures
abort the entry point with a descriptive error, while socket send failures
(of an outgoing packet or a version-negotiation datagram) are only logged:
the iteration still continues the loop. -/
theorem fatal_vs_logged_io_failures :
    (∀ certFails keyFails events,
      setup_quic_server true certFails keyFails events =
        .error "IO Error: bind failed") ∧
    (∀ st msg rest, run st (.recvErr msg :: rest) =
      .fatal [] ("IO Error: " ++ msg)) ∧
    (∀ st e, e.sockSendFails = true → e.acceptFails = false →
      ∃ st' out, step st e = .next st' out) :=
  ⟨fun _ _ _ => rfl,
   fun st msg rest => run_cons_recvErr st msg rest,
   fun st e _ ha => step_isNext_of_acceptOk st e ha⟩

/-- Witness for C8 (amended) at concrete failures. -/
theorem fatal_vs_logged_io_failures_witness :
    setup_quic_server true false false [] = .error "IO Error: bind failed" ∧
    run ServerState.init [.recvErr "connection reset"] =
      .fatal [] ("IO Error: " ++ "connection reset") ∧
    (∃ st' out, step ServerState.init
      { src := 3,
        parse := some { version := 2, scid := [6], dcid := [5] },
        acceptFails := false, recvFails := false, makesEstablished := false,
        produces := [], streamSendFails := false, sockSendFails := true } =
      .next st' out) :=
  ⟨fatal_vs_logged_io_failures.1 false false [],
   fatal_vs_logged_io_failures.2.1 ServerState.init "connection reset" [],
   fatal_vs_logged_io_failures.2.2 ServerState.init
     { src := 3,
       parse := some { version := 2, scid := [6], dcid := [5] },
       acceptFails := false, recvFails := false, makesEstablished := false,
       produces := [], streamSendFails := false, sockSendFails := true }
     rfl rfl⟩

/-- Claim C9: no dispatch cycle removes a Connection Table entry: each
continuing cycle, and hence any run of the loop, only grows the key set,
and the table size is monotonically nondecreasing. -/
theorem table_keys_monotone :
    (∀ st e st' out, step st e = .next st' out →
      (∀ id, id ∈ tableKeys st.clients → id ∈ tableKeys st'.clients) ∧
      st.clients.length ≤ st'.clients.length) ∧
    (∀ events st st' out, run st events = .running st' out →
      (∀ id, id ∈ tableKeys st.clients → id ∈ tableKeys st'.clients) ∧
      st.clients.length ≤ st'.clients.length) :=
  ⟨step_keys_monotone,
   fun events st st' out h => run_keys_monotone events st st' out h⟩

/-- Witness for C9 at a concrete table, cycle and run. -/
theorem table_keys_monotone_witness :
    ((∀ id, id ∈ tableKeys
        ([([5],
           ({ tag := 0, established := false, streamFin := false,
              pending := [] } : Conn))] : ClientMap) →
      id ∈ tableKeys
        ([([5],
           ({ tag := 0, established := false, streamFin := false,
              pending := [] } : Conn))] : ClientMap)) ∧
      ([([5],
         ({ tag := 0, established := false, streamFin := false,
            pending := [] } : Conn))] : ClientMap).length ≤
        ([([5],
           ({ tag := 0, established := false, streamFin := false,
              pending := [] } : Conn))] : ClientMap).length) ∧
    ((∀ id, id ∈ tableKeys (ServerState.init).clients →
        id ∈ tableKeys (ServerState.init).clients) ∧
      (ServerState.init).clients.length ≤ (ServerState.init).clients.length) :=
  ⟨table_keys_monotone.1
     { clients :=
         [([5],
           { tag := 0, established := false, streamFin := false,
             pending := [] })],
       nextTag := 1 }
     { src := 3, parse := none, acceptFails := false, recvFails := false,
       makesEstablished := false, produces := [], streamSendFails := false,
       sockSendFails := false }
     { clients :=
         [([5],
           { tag := 0, established := false, streamFin := false,
             pending := [] })],
       nextTag := 1 }
     [.logMsg "Failed to parse header"] rfl,
   table_keys_monotone.2 [] ServerState.init ServerState.init [] rfl⟩

/-- Claim C10: if the engine's ingest fails for a routed datagram, the
cycle performs neither the echo-responder step nor the flush: the only
output is the logged ingest error — so nothing is sent in response — and
the routed connection's table entry, as well as every other entry, is left
in place. -/
theorem ingest_failure_frame_effect (st : ServerState) (e : Event)
    (hdr : Header) (st' : ServerState) (out : List Output)
    (hp : e.parse = some hdr) (hv : hdr.version = QUIC_V1)
    (hr : e.recvFails = true) (h : step st e = .next st' out) :
    out = [.logMsg "QUIC recv error"] ∧
    hdr.dcid ∈ tableKeys st'.clients ∧
    (∀ id, id ∈ tableKeys st.clients → id ∈ tableKeys st'.clients) := by
  rcases hl : lookupConn st.clients hdr.dcid with _ | c
  · by_cases ha : e.acceptFails
    · rw [step_accept_fail st e hdr hp hv hl ha] at h
      exact Outcome.noConfusion h
    · rw [step_accept_ok st e hdr hp hv hl (by simpa using ha),
        stepAfterEntry_eq, if_pos hr] at h
      obtain ⟨rfl, rfl⟩ := Outcome_next_inj h
      refine ⟨rfl, ?_, ?_⟩
      · show hdr.dcid ∈ tableKeys
          (insertConn st.clients hdr.dcid (Conn.accept st.nextTag))
        rw [tableKeys_insertConn]
        exact List.mem_append_right _ (List.mem_singleton_self _)
      · intro id hm
        show id ∈ tableKeys
          (insertConn st.clients hdr.dcid (Conn.accept st.nextTag))
        rw [tableKeys_insertConn]
        exact List.mem_append_left _ hm
  · rw [step_found st e hdr c hp hv hl, stepAfterEntry_eq, if_pos hr] at h
    obtain ⟨rfl, rfl⟩ := Outcome_next_inj h
    exact ⟨rfl, mem_tableKeys_of_lookupConn_some hl, fun id hm => hm⟩

/-- Witness for C10 at a concrete failing ingest. -/
theorem ingest_failure_frame_effect_witness :
    [Output.logMsg "QUIC recv error"] = [Output.logMsg "QUIC recv error"] ∧
    [5] ∈ tableKeys
      ([([5],
         ({ tag := 0, established := false, streamFin := false,
            pending := [] } : Conn))] : ClientMap) ∧
    (∀ id, id ∈ tableKeys
        ([([5],
           ({ tag := 0, established := false, streamFin := false,
              pending := [] } : Conn))] : ClientMap) →
      id ∈ tableKeys
        ([([5],
           ({ tag := 0, established := false, streamFin := false,
              pending := [] } : Conn))] : ClientMap)) :=
  ingest_failure_frame_effect
    { clients :=
        [([5],
          { tag := 0, established := false, streamFin := false,
            pending := [] })],
      nextTag := 1 }
    { src := 3,
      parse := some { version := 1, scid := [6], dcid := [5] },
      acceptFails := false, recvFails := true, makesEstablished := false,
      produces := [], streamSendFails := false, sockSendFails := false }
    { version := 1, scid := [6], dcid := [5] }
    { clients :=
        [([5],
          { tag := 0, established := false, streamFin := false,
            pending := [] })],
      nextTag := 1 }
    [.logMsg "QUIC recv error"] rfl rfl rfl rfl

end QuicheNode
